import Mathlib

set_option maxHeartbeats 1000000
set_option maxRecDepth 4000

/-!
Shallow embedding of the `ir` process supervisor (src/main.rs, src/fdio.rs,
src/sys.rs): framed descriptor IO, the syscall-layer string conversions, the
launch loop, the child branch, the select/reap phases and the reap loop, with
theorems checking the specification's claims against them.

Machine integers are modelled as `Nat` (usize is 64-bit; truncation is written
`% 2 ^ 64` where it matters); byte strings are `List Nat` with bytes below 256;
fallible operations return explicit outcome types in which a Rust `panic!` or
`.unwrap()` failure is a dedicated `panic` constructor, distinct from returned
errors.
-/

/-! ## Error kinds (src/err.rs is external; kinds as named by the spec, §7) -/

/-- The error kinds the spec names for the core (`Eof`, `IoShort`, `OsError`,
`BadArgument`).  `ioShort` and `badArgument` exist so that claims about them
are statable; the embedded code decides whether they are ever produced. -/
inductive Err where
  | eof
  | ioShort
  | osError (errno : Nat)
  | badArgument
deriving DecidableEq

/-- Outcome of a fallible operation: a returned value, a returned error, or a
process abort (`panic!` / `.unwrap()` on an error). -/
inductive IoResult (α : Type) where
  | ok (a : α)
  | err (e : Err)
  | panic
deriving DecidableEq

/-! ## Native-endian usize framing (fdio.rs lines 29-40, 61-63) -/

/-- The 8 little-endian (x86-64 native) bytes of `n`, as produced by Rust's
`usize::to_ne_bytes` (truncating to 64 bits). -/
def toNeBytes (n : Nat) : List Nat :=
  [n % 256, n / 256 % 256, n / 256 ^ 2 % 256, n / 256 ^ 3 % 256,
   n / 256 ^ 4 % 256, n / 256 ^ 5 % 256, n / 256 ^ 6 % 256, n / 256 ^ 7 % 256]

/-- Rust's `usize::from_ne_bytes` on a little-endian byte list. -/
def fromNeBytes (bs : List Nat) : Nat :=
  bs.foldr (fun b acc => b + 256 * acc) 0

theorem toNeBytes_length (n : Nat) : (toNeBytes n).length = 8 := rfl

theorem fromNeBytes_toNeBytes {n : Nat} (h : n < 2 ^ 64) :
    fromNeBytes (toNeBytes n) = n := by
  simp only [toNeBytes, fromNeBytes, List.foldr]
  norm_num
  omega

/-! ## read_usize (fdio.rs lines 29-40)

`read_usize` performs one `libc::read(fd, buf, 8)` and matches on its return
value: `-1` is the OS error, `0` is `Eof`, `8` is success, anything else hits
`panic!("read_usize: read returned {}", ret)`.  The raw read outcome is
modelled as either an errno or the byte list actually delivered. -/

/-- Result of the underlying `libc::read` call: an errno, or the bytes read. -/
inductive ReadRet where
  | errRet (errno : Nat)
  | bytes (bs : List Nat)
deriving DecidableEq

/-- Outcome of `read_usize`. -/
inductive RUOut where
  | ok (n : Nat)
  | errEof
  | errOs (errno : Nat)
  | errIoShort
  | panicOut
deriving DecidableEq

/-- Embeds `fdio::read_usize` (fdio.rs lines 29-40): match on the `read`
return value; `-1` maps to the OS error, `0` to `Eof`, `8` to success, any
other count to a `panic!`. -/
def read_usize (r : ReadRet) : RUOut :=
  match r with
  | ReadRet.errRet e => RUOut.errOs e
  | ReadRet.bytes bs =>
    if bs.length = 0 then RUOut.errEof
    else if bs.length = 8 then RUOut.ok (fromNeBytes bs)
    else RUOut.panicOut

/-! ## UTF-8 (the Rust standard library codec used by `String::as_bytes` and
`String::from_utf8_lossy` in fdio.rs lines 26 and 56)

Strings are modelled as lists of Unicode scalar values (`Nat` below 0x110000,
excluding the surrogate range, as guaranteed by Rust's `String`). -/

/-- A Unicode scalar value: any code point except the UTF-16 surrogates. -/
def ValidScalar (c : Nat) : Prop := c < 0x110000 ∧ ¬(0xD800 ≤ c ∧ c < 0xE000)

instance (c : Nat) : Decidable (ValidScalar c) :=
  inferInstanceAs (Decidable (c < 0x110000 ∧ ¬(0xD800 ≤ c ∧ c < 0xE000)))

/-- UTF-8 encoding of one scalar value (1 to 4 bytes). -/
def utf8EncodeChar (c : Nat) : List Nat :=
  if c < 0x80 then [c]
  else if c < 0x800 then [0xC0 + c / 0x40, 0x80 + c % 0x40]
  else if c < 0x10000 then
    [0xE0 + c / 0x1000, 0x80 + c / 0x40 % 0x40, 0x80 + c % 0x40]
  else
    [0xF0 + c / 0x40000, 0x80 + c / 0x1000 % 0x40, 0x80 + c / 0x40 % 0x40,
     0x80 + c % 0x40]

/-- UTF-8 encoding of a string (Rust `str::as_bytes`). -/
def utf8Encode (s : List Nat) : List Nat := (s.map utf8EncodeChar).flatten

/-- A UTF-8 continuation byte (0x80..0xBF). -/
def ContB (b : Nat) : Prop := 0x80 ≤ b ∧ b < 0xC0

instance (b : Nat) : Decidable (ContB b) :=
  inferInstanceAs (Decidable (0x80 ≤ b ∧ b < 0xC0))

/-- Valid first continuation byte after a three-byte lead `b0`: the lead
`0xE0` forbids overlong forms, the lead `0xED` forbids surrogates. -/
def ContRange3 (b0 b1 : Nat) : Prop :=
  (b0 = 0xE0 → 0xA0 ≤ b1) ∧ (b0 = 0xED → b1 < 0xA0) ∧ ContB b1

instance (b0 b1 : Nat) : Decidable (ContRange3 b0 b1) :=
  inferInstanceAs
    (Decidable ((b0 = 0xE0 → 0xA0 ≤ b1) ∧ (b0 = 0xED → b1 < 0xA0) ∧ ContB b1))

/-- Valid first continuation byte after a four-byte lead `b0`: the lead
`0xF0` forbids overlong forms, the lead `0xF4` caps code points at
U+10FFFF. -/
def ContRange4 (b0 b1 : Nat) : Prop :=
  (b0 = 0xF0 → 0x90 ≤ b1) ∧ (b0 = 0xF4 → b1 < 0x90) ∧ ContB b1

instance (b0 b1 : Nat) : Decidable (ContRange4 b0 b1) :=
  inferInstanceAs
    (Decidable ((b0 = 0xF0 → 0x90 ≤ b1) ∧ (b0 = 0xF4 → b1 < 0x90) ∧ ContB b1))

/-- Lossy UTF-8 decoding, as `String::from_utf8_lossy`: each maximal subpart
of an ill-formed subsequence is replaced by U+FFFD (the policy of the Rust
standard library and of the Unicode standard). -/
def utf8DecodeLossy : List Nat → List Nat
  | [] => []
  | [b0] => if b0 < 0x80 then [b0] else [0xFFFD]
  | [b0, b1] =>
    if b0 < 0x80 then b0 :: utf8DecodeLossy [b1]
    else if b0 < 0xC2 then 0xFFFD :: utf8DecodeLossy [b1]
    else if b0 < 0xE0 then
      if ContB b1 then [(b0 - 0xC0) * 0x40 + (b1 - 0x80)]
      else 0xFFFD :: utf8DecodeLossy [b1]
    else if b0 < 0xF0 then
      if ContRange3 b0 b1 then [0xFFFD]
      else 0xFFFD :: utf8DecodeLossy [b1]
    else if b0 < 0xF5 then
      if ContRange4 b0 b1 then [0xFFFD]
      else 0xFFFD :: utf8DecodeLossy [b1]
    else 0xFFFD :: utf8DecodeLossy [b1]
  | [b0, b1, b2] =>
    if b0 < 0x80 then b0 :: utf8DecodeLossy [b1, b2]
    else if b0 < 0xC2 then 0xFFFD :: utf8DecodeLossy [b1, b2]
    else if b0 < 0xE0 then
      if ContB b1 then ((b0 - 0xC0) * 0x40 + (b1 - 0x80)) :: utf8DecodeLossy [b2]
      else 0xFFFD :: utf8DecodeLossy [b1, b2]
    else if b0 < 0xF0 then
      if ContRange3 b0 b1 then
        if ContB b2 then [(b0 - 0xE0) * 0x1000 + (b1 - 0x80) * 0x40 + (b2 - 0x80)]
        else 0xFFFD :: utf8DecodeLossy [b2]
      else 0xFFFD :: utf8DecodeLossy [b1, b2]
    else if b0 < 0xF5 then
      if ContRange4 b0 b1 then
        if ContB b2 then [0xFFFD]
        else 0xFFFD :: utf8DecodeLossy [b2]
      else 0xFFFD :: utf8DecodeLossy [b1, b2]
    else 0xFFFD :: utf8DecodeLossy [b1, b2]
  | b0 :: b1 :: b2 :: b3 :: rest =>
    if b0 < 0x80 then b0 :: utf8DecodeLossy (b1 :: b2 :: b3 :: rest)
    else if b0 < 0xC2 then 0xFFFD :: utf8DecodeLossy (b1 :: b2 :: b3 :: rest)
    else if b0 < 0xE0 then
      if ContB b1 then
        ((b0 - 0xC0) * 0x40 + (b1 - 0x80)) :: utf8DecodeLossy (b2 :: b3 :: rest)
      else 0xFFFD :: utf8DecodeLossy (b1 :: b2 :: b3 :: rest)
    else if b0 < 0xF0 then
      if ContRange3 b0 b1 then
        if ContB b2 then
          ((b0 - 0xE0) * 0x1000 + (b1 - 0x80) * 0x40 + (b2 - 0x80))
            :: utf8DecodeLossy (b3 :: rest)
        else 0xFFFD :: utf8DecodeLossy (b2 :: b3 :: rest)
      else 0xFFFD :: utf8DecodeLossy (b1 :: b2 :: b3 :: rest)
    else if b0 < 0xF5 then
      if ContRange4 b0 b1 then
        if ContB b2 then
          if ContB b3 then
            ((b0 - 0xF0) * 0x40000 + (b1 - 0x80) * 0x1000 + (b2 - 0x80) * 0x40
              + (b3 - 0x80)) :: utf8DecodeLossy rest
          else 0xFFFD :: utf8DecodeLossy (b3 :: rest)
        else 0xFFFD :: utf8DecodeLossy (b2 :: b3 :: rest)
      else 0xFFFD :: utf8DecodeLossy (b1 :: b2 :: b3 :: rest)
    else 0xFFFD :: utf8DecodeLossy (b1 :: b2 :: b3 :: rest)

example : utf8DecodeLossy [0x48, 0xE2, 0x82, 0xAC] = [0x48, 0x20AC] := by decide
example : utf8DecodeLossy [0xFF, 0x41] = [0xFFFD, 0x41] := by decide
example : utf8DecodeLossy (utf8Encode [0x10348, 0x7FF, 0x800, 0xD7FF, 0xE000, 0x10FFFF])
    = [0x10348, 0x7FF, 0x800, 0xD7FF, 0xE000, 0x10FFFF] := by decide

theorem utf8DecodeLossy_nil : utf8DecodeLossy [] = [] := rfl

theorem utf8DecodeLossy_one {b0 : Nat} (h : b0 < 0x80) (rest : List Nat) :
    utf8DecodeLossy (b0 :: rest) = b0 :: utf8DecodeLossy rest := by
  match rest with
  | [] => simp only [utf8DecodeLossy, if_pos h]
  | [b1] => rw [utf8DecodeLossy.eq_3]; simp only [if_pos h]
  | [b1, b2] => rw [utf8DecodeLossy.eq_4]; simp only [if_pos h]
  | b1 :: b2 :: b3 :: t => rw [utf8DecodeLossy.eq_5]; simp only [if_pos h]

theorem utf8DecodeLossy_two {b0 b1 : Nat} (h1 : 0xC2 ≤ b0) (h2 : b0 < 0xE0)
    (h3 : ContB b1) (rest : List Nat) :
    utf8DecodeLossy (b0 :: b1 :: rest)
      = ((b0 - 0xC0) * 0x40 + (b1 - 0x80)) :: utf8DecodeLossy rest := by
  match rest with
  | [] =>
    rw [utf8DecodeLossy.eq_3]
    simp only [if_neg (by omega : ¬b0 < 0x80), if_neg (by omega : ¬b0 < 0xC2),
      if_pos h2, if_pos h3, utf8DecodeLossy]
  | [b2] =>
    rw [utf8DecodeLossy.eq_4]
    simp only [if_neg (by omega : ¬b0 < 0x80), if_neg (by omega : ¬b0 < 0xC2),
      if_pos h2, if_pos h3]
  | b2 :: b3 :: t =>
    rw [utf8DecodeLossy.eq_5]
    simp only [if_neg (by omega : ¬b0 < 0x80), if_neg (by omega : ¬b0 < 0xC2),
      if_pos h2, if_pos h3]

theorem utf8DecodeLossy_three {b0 b1 b2 : Nat} (h1 : 0xE0 ≤ b0) (h2 : b0 < 0xF0)
    (h3 : ContRange3 b0 b1) (h4 : ContB b2) (rest : List Nat) :
    utf8DecodeLossy (b0 :: b1 :: b2 :: rest)
      = ((b0 - 0xE0) * 0x1000 + (b1 - 0x80) * 0x40 + (b2 - 0x80))
          :: utf8DecodeLossy rest := by
  match rest with
  | [] =>
    rw [utf8DecodeLossy.eq_4]
    simp only [if_neg (by omega : ¬b0 < 0x80), if_neg (by omega : ¬b0 < 0xC2),
      if_neg (by omega : ¬b0 < 0xE0), if_pos h2, if_pos h3, if_pos h4,
      utf8DecodeLossy]
  | b3 :: t =>
    rw [utf8DecodeLossy.eq_5]
    simp only [if_neg (by omega : ¬b0 < 0x80), if_neg (by omega : ¬b0 < 0xC2),
      if_neg (by omega : ¬b0 < 0xE0), if_pos h2, if_pos h3, if_pos h4]

theorem utf8DecodeLossy_four {b0 b1 b2 b3 : Nat} (h1 : 0xF0 ≤ b0) (h2 : b0 < 0xF5)
    (h3 : ContRange4 b0 b1) (h4 : ContB b2) (h5 : ContB b3) (rest : List Nat) :
    utf8DecodeLossy (b0 :: b1 :: b2 :: b3 :: rest)
      = ((b0 - 0xF0) * 0x40000 + (b1 - 0x80) * 0x1000 + (b2 - 0x80) * 0x40
          + (b3 - 0x80)) :: utf8DecodeLossy rest := by
  rw [utf8DecodeLossy.eq_5]
  simp only [if_neg (by omega : ¬b0 < 0x80), if_neg (by omega : ¬b0 < 0xC2),
    if_neg (by omega : ¬b0 < 0xE0), if_neg (by omega : ¬b0 < 0xF0), if_pos h2,
    if_pos h3, if_pos h4, if_pos h5]

theorem utf8DecodeLossy_encodeChar {c : Nat} (h : ValidScalar c) (rest : List Nat) :
    utf8DecodeLossy (utf8EncodeChar c ++ rest) = c :: utf8DecodeLossy rest := by
  obtain ⟨hlt, hsur⟩ := h
  by_cases hc1 : c < 0x80
  · have he : utf8EncodeChar c = [c] := by rw [utf8EncodeChar, if_pos hc1]
    rw [he, List.singleton_append, utf8DecodeLossy_one hc1]
  · by_cases hc2 : c < 0x800
    · have he : utf8EncodeChar c = [0xC0 + c / 0x40, 0x80 + c % 0x40] := by
        rw [utf8EncodeChar, if_neg hc1, if_pos hc2]
      rw [he]
      simp only [List.cons_append, List.nil_append]
      rw [utf8DecodeLossy_two (by omega) (by omega)
        (by simp only [ContB]; omega)]
      congr 1
      omega
    · by_cases hc3 : c < 0x10000
      · have he : utf8EncodeChar c
            = [0xE0 + c / 0x1000, 0x80 + c / 0x40 % 0x40, 0x80 + c % 0x40] := by
          rw [utf8EncodeChar, if_neg hc1, if_neg hc2, if_pos hc3]
        rw [he]
        simp only [List.cons_append, List.nil_append]
        rw [utf8DecodeLossy_three (by omega) (by omega)
          (by simp only [ContRange3, ContB]; omega)
          (by simp only [ContB]; omega)]
        congr 1
        omega
      · have he : utf8EncodeChar c
            = [0xF0 + c / 0x40000, 0x80 + c / 0x1000 % 0x40,
               0x80 + c / 0x40 % 0x40, 0x80 + c % 0x40] := by
          rw [utf8EncodeChar, if_neg hc1, if_neg hc2, if_neg hc3]
        rw [he]
        simp only [List.cons_append, List.nil_append]
        rw [utf8DecodeLossy_four (by omega) (by omega)
          (by simp only [ContRange4, ContB]; omega)
          (by simp only [ContB]; omega) (by simp only [ContB]; omega)]
        congr 1
        omega

/-- Decoding is a left inverse of encoding on well-formed strings: the
embedded `String::from_utf8_lossy` recovers exactly the scalar values that
`str::as_bytes` serialized. -/
theorem utf8DecodeLossy_utf8Encode {s : List Nat} (h : ∀ c ∈ s, ValidScalar c) :
    utf8DecodeLossy (utf8Encode s) = s := by
  induction s with
  | nil => rfl
  | cons c t ih =>
    have hc : ValidScalar c := h c (by simp)
    have ht : ∀ x ∈ t, ValidScalar x := fun x hx => h x (by simp [hx])
    simp only [utf8Encode, List.map_cons, List.flatten_cons]
    rw [utf8DecodeLossy_encodeChar hc]
    rw [show (t.map utf8EncodeChar).flatten = utf8Encode t from rfl, ih ht]

/-! ## Framed string IO over a byte stream (fdio.rs lines 12-27, 42-63)

`sys::read` and `sys::write` belong to the repository's syscall layer but are
not under src/, so the transfer itself is modelled from the spec (§4.A: thin
wrappers over the POSIX primitives): a read on a descriptor whose available
bytes are the list `s` delivers the first `min len |s|` bytes, a write
delivers all its bytes to the stream. -/

/-- Modelled from the spec: `sys::read` (missing from src/) on a descriptor
whose available bytes are `s`, asked for `len` bytes. -/
def sysReadBytes (s : List Nat) (len : Nat) : List Nat := s.take len

/-- Embeds `fdio::write_usize` (fdio.rs lines 61-63): emits
`val.to_ne_bytes()`. -/
def write_usize (n : Nat) : List Nat := toNeBytes n

/-- Embeds `fdio::write_str` (fdio.rs lines 55-59): the byte-length of the
string as a native-endian usize frame header, then the UTF-8 bytes. -/
def write_str (s : List Nat) : List Nat :=
  write_usize (utf8Encode s).length ++ utf8Encode s

/-- Embeds `fdio::read_usize` run against a byte stream: its single
`libc::read(fd, buf, 8)` delivers the first `min 8 |s|` bytes, then the match
of fdio.rs lines 31-39 interprets the count. -/
def readUsizeStream (s : List Nat) : IoResult (Nat × List Nat) :=
  match read_usize (ReadRet.bytes (sysReadBytes s 8)) with
  | RUOut.ok n => IoResult.ok (n, s.drop 8)
  | RUOut.errEof => IoResult.err Err.eof
  | RUOut.errOs e => IoResult.err (Err.osError e)
  | RUOut.errIoShort => IoResult.err Err.ioShort
  | RUOut.panicOut => IoResult.panic

/-- Embeds `fdio::read` (fdio.rs lines 12-19): a full read succeeds, zero
bytes is `Eof`, and a short read hits `panic!("short read: ...")`. -/
def fdioRead (s : List Nat) (len : Nat) : IoResult (List Nat × List Nat) :=
  if (sysReadBytes s len).length = len then
    IoResult.ok (sysReadBytes s len, s.drop len)
  else if (sysReadBytes s len).length = 0 then IoResult.err Err.eof
  else IoResult.panic

/-- Embeds `fdio::read_str` (fdio.rs lines 22-27): read the usize length
frame, read that many payload bytes, and return
`String::from_utf8_lossy(&buf)`. -/
def read_str (s : List Nat) : IoResult (List Nat) :=
  match readUsizeStream s with
  | IoResult.ok (len, rest) =>
    match fdioRead rest len with
    | IoResult.ok (buf, _) => IoResult.ok (utf8DecodeLossy buf)
    | IoResult.err e => IoResult.err e
    | IoResult.panic => IoResult.panic
  | IoResult.err e => IoResult.err e
  | IoResult.panic => IoResult.panic

theorem read_str_frame (p : List Nat) (hlen : p.length < 2 ^ 64) :
    read_str (toNeBytes p.length ++ p) = IoResult.ok (utf8DecodeLossy p) := by
  have hL : (toNeBytes p.length).length = 8 := rfl
  have htake : (toNeBytes p.length ++ p).take 8 = toNeBytes p.length := by
    rw [← hL]
    exact List.take_left _ _
  have hdrop : (toNeBytes p.length ++ p).drop 8 = p := by
    rw [← hL]
    exact List.drop_left _ _
  rw [read_str, readUsizeStream, sysReadBytes, htake, read_usize]
  simp only [hL, fromNeBytes_toNeBytes hlen]
  norm_num
  rw [hdrop, fdioRead, sysReadBytes, List.take_length]
  simp

/-- C9: for every UTF-8 string `s` (a list of Unicode scalar values whose
encoding fits a usize), reading a frame after writing it round-trips:
`read_str` applied to the bytes produced by `write_str s` (8-byte
native-endian length followed by the UTF-8 bytes) returns exactly `s`. -/
theorem c9_read_write_roundtrip (s : List Nat) (hv : ∀ c ∈ s, ValidScalar c)
    (hlen : (utf8Encode s).length < 2 ^ 64) :
    read_str (write_str s) = IoResult.ok s := by
  rw [write_str, write_usize, read_str_frame _ hlen,
    utf8DecodeLossy_utf8Encode hv]

theorem c9_roundtrip_witness :
    (∀ c ∈ [0x48, 0x20AC, 0x10348], ValidScalar c) ∧
      read_str (write_str [0x48, 0x20AC, 0x10348])
        = IoResult.ok [0x48, 0x20AC, 0x10348] :=
  ⟨by decide, c9_read_write_roundtrip [0x48, 0x20AC, 0x10348] (by decide)
    (by decide)⟩

/-- C10: for every frame whose payload bytes are fully available on the
stream, `read_str` succeeds and returns the lossy UTF-8 decoding of the
payload; a payload that is not valid UTF-8 never causes `read_str` to return
an error, it is decoded with replacement characters instead. -/
theorem c10_read_str_lossy (p : List Nat) (hlen : p.length < 2 ^ 64) :
    read_str (toNeBytes p.length ++ p) = IoResult.ok (utf8DecodeLossy p) :=
  read_str_frame p hlen

theorem c10_lossy_witness :
    read_str (toNeBytes ([0xFF, 0x41] : List Nat).length ++ [0xFF, 0x41])
      = IoResult.ok [0xFFFD, 0x41] := by
  rw [c10_read_str_lossy [0xFF, 0x41] (by decide)]
  decide

/-- C5, claim as stated is false at a concrete input: when the single read
delivers 3 bytes (fewer than 8, after at least one byte), `read_usize` does
not return `IoShort` — fdio.rs line 38 hits
`panic!("read_usize: read returned {}", ret)` instead. -/
theorem c5_counterexample :
    read_usize (ReadRet.bytes [1, 2, 3]) ≠ RUOut.errIoShort := by decide

/-- C5 (amended): `read_usize` returns `Eof` if zero bytes are read before
any byte arrives; but whenever fewer than 8 bytes arrive after at least one
byte it aborts with a panic rather than returning `IoShort` (a delivery of 8
bytes succeeds). -/
theorem c5_read_usize_behaviour (bs : List Nat) :
    (bs.length = 0 → read_usize (ReadRet.bytes bs) = RUOut.errEof) ∧
    (1 ≤ bs.length → bs.length < 8 →
      read_usize (ReadRet.bytes bs) = RUOut.panicOut) ∧
    (bs.length = 8 → read_usize (ReadRet.bytes bs) = RUOut.ok (fromNeBytes bs)) := by
  refine ⟨fun h0 => ?_, fun h1 h7 => ?_, fun h8 => ?_⟩
  · simp only [read_usize, if_pos h0]
  · simp only [read_usize, if_neg (by omega : ¬bs.length = 0),
      if_neg (by omega : ¬bs.length = 8)]
  · simp only [read_usize, if_neg (by omega : ¬bs.length = 0), if_pos h8]

theorem c5_behaviour_witness :
    read_usize (ReadRet.bytes [1, 2, 3]) = RUOut.panicOut :=
  (c5_read_usize_behaviour [1, 2, 3]).2.1 (by decide) (by decide)

/-! ## Syscall-layer C string conversions and execve (sys.rs lines 36-58,
91-106) -/

/-- Embeds Rust `CString::new`: fails (`NulError`) iff the byte string
contains an interior NUL; otherwise appends the terminating NUL. -/
def cStringNew (s : List Nat) : Option (List Nat) :=
  if 0 ∈ s then none else some (s ++ [0])

/-- Embeds `CStringVec::from` (sys.rs lines 39-57): converts every string
with `CString::new(s).unwrap()`; `none` models the unwrap panic raised by a
NUL byte. -/
def cStringVecFrom : List (List Nat) → Option (List (List Nat))
  | [] => some []
  | s :: rest =>
    match cStringNew s, cStringVecFrom rest with
    | some cs, some csr => some (cs :: csr)
    | _, _ => none

theorem cStringVecFrom_none {l : List (List Nat)} {a : List Nat} (ha : a ∈ l)
    (h0 : (0 : Nat) ∈ a) : cStringVecFrom l = none := by
  induction l with
  | nil => cases ha
  | cons s rest ih =>
    rcases List.mem_cons.mp ha with rfl | hmem
    · simp [cStringVecFrom, cStringNew, h0]
    · cases hs : cStringNew s <;> simp [cStringVecFrom, hs, ih hmem]

/-- Embeds the `NAME=val` environment formatting of sys.rs lines 93-95. -/
def formatEnvVar (nv : List Nat × List Nat) : List Nat :=
  nv.1 ++ [0x3D] ++ nv.2

/-- Embeds `sys::execve` (sys.rs lines 91-106): the executable path, the
argument vector and the formatted environment are converted to C strings
(every conversion is `.unwrap()`ed, so a NUL byte aborts); only when all
conversions succeed does control reach `libc::execve`, which returns only on
failure, surfacing the errno as the OS error. -/
def execve (exe : List Nat) (args : List (List Nat))
    (env : List (List Nat × List Nat)) (errno : Nat) : IoResult Unit :=
  match cStringNew exe, cStringVecFrom args,
      cStringVecFrom (env.map formatEnvVar) with
  | some _, some _, some _ => IoResult.err (Err.osError errno)
  | _, _, _ => IoResult.panic

/-- C6, claim as stated is false at a concrete input: an argv element
containing a NUL byte does not produce a returned `BadArgument` error — the
`CString::new(s).unwrap()` of sys.rs line 43 panics. -/
theorem c6_counterexample :
    execve [0x2F] [[0x41, 0]] [] 2 ≠ IoResult.err Err.badArgument := by decide

/-- C6 (amended): a NUL byte anywhere in the executable path, an argv
element, or a formatted environment entry makes the syscall layer abort with
a panic before the `execve` syscall is reached; no `BadArgument` error value
is returned. -/
theorem c6_nul_panics (exe : List Nat) (args : List (List Nat))
    (env : List (List Nat × List Nat)) (errno : Nat)
    (h : (0 : Nat) ∈ exe ∨ (∃ a ∈ args, (0 : Nat) ∈ a) ∨
      (∃ nv ∈ env, (0 : Nat) ∈ formatEnvVar nv)) :
    execve exe args env errno = IoResult.panic := by
  rcases h with h0 | ⟨a, ha, h0⟩ | ⟨nv, hnv, h0⟩
  · simp [execve, cStringNew, h0]
  · have hargs := cStringVecFrom_none ha h0
    cases he : cStringNew exe <;> simp [execve, he, hargs]
  · have hmem : formatEnvVar nv ∈ env.map formatEnvVar :=
      List.mem_map_of_mem _ hnv
    have henv := cStringVecFrom_none hmem h0
    cases he : cStringNew exe <;> cases hargs : cStringVecFrom args <;>
      simp [execve, he, hargs, henv]

theorem c6_nul_witness : execve [0x2F] [[0x41, 0]] [] 2 = IoResult.panic :=
  c6_nul_panics [0x2F] [[0x41, 0]] [] 2
    (Or.inr (Or.inl ⟨[0x41, 0], by decide, by decide⟩))

/-! ## The launch loop (main.rs lines 55-126) -/

/-- Events the launch loop performs that concern the error pipe: forking a
child, the parent's `close(err_write_fd)` (recording whether the descriptor
was still open), and the abort raised by `.unwrap()` when that close
fails. -/
inductive LaunchEv where
  | forkChild
  | closeErrW (wasOpen : Bool)
  | panicked
deriving DecidableEq

/-- Embeds the per-ProcSpec loop of main.rs lines 56-126 as the sequence of
fork and error-pipe events of the parent, tracking whether the parent still
holds `err_write_fd` open: every iteration forks (line 72) and then, in the
parent branch, calls `sys::close(err_write_fd).unwrap()` (line 117).  A
close of an already-closed descriptor fails with EBADF, so the unwrap
panics and the loop aborts. -/
def launchLoop : Nat → Bool → List LaunchEv
  | 0, _ => []
  | Nat.succ n, errwOpen =>
    LaunchEv.forkChild :: LaunchEv.closeErrW errwOpen ::
      (if errwOpen then launchLoop n false else [LaunchEv.panicked])

/-- Recognises a `close(err_write_fd)` call event. -/
def isCloseEv : LaunchEv → Bool
  | LaunchEv.closeErrW _ => true
  | _ => false

/-- C1 fails on the code: on an input with two ProcSpecs the parent calls
`close(err_w)` twice, not exactly once; the second child is forked (index 2)
after the first close (index 1), so it does not inherit `err_w` open; and
the second close call does not succeed — it fails on the already-closed
descriptor and the `.unwrap()` panics before the selector loop is ever
reached. -/
theorem c1_close_inside_loop :
    ((launchLoop 2 true).filter isCloseEv).length = 2 ∧
    (launchLoop 2 true)[1]? = some (LaunchEv.closeErrW true) ∧
    (launchLoop 2 true)[2]? = some LaunchEv.forkChild ∧
    (launchLoop 2 true)[3]? = some (LaunchEv.closeErrW false) ∧
    LaunchEv.panicked ∈ launchLoop 2 true := by decide

/-! ## The supervise phase (main.rs lines 128-186) -/

/-- An event of the supervise phase: one `selecter.select(None)` call, or the
reaping of one child. -/
inductive SupEv where
  | selectCall
  | reapChild (pid : Nat)
deriving DecidableEq

/-- Embeds the supervise phase of main.rs lines 130-186: the select loop
(`while selecter.any()`, lines 130-142) runs to completion — however many
select calls that takes — strictly before the reap loop
(`while procs.len() > 0`, lines 144-186) begins; the
`FIXME: Merge select loop and wait loop` comment at line 128 records that
the two loops are not interleaved. -/
def superviseTrace (nselects : Nat) (pids : List Nat) : List SupEv :=
  List.replicate nselects SupEv.selectCall ++ pids.map SupEv.reapChild

/-- C3 fails on the code: in the supervise phase every select call precedes
every reap, i.e. the supervisor always runs the selector to completion
before reaping any child — the opposite of the interleaving the claim
requires. -/
theorem c3_select_runs_to_completion_first (n : Nat) (pids : List Nat)
    (i j p : Nat) (hi : (superviseTrace n pids)[i]? = some SupEv.selectCall)
    (hj : (superviseTrace n pids)[j]? = some (SupEv.reapChild p)) : i < j := by
  have hlen : (List.replicate n SupEv.selectCall).length = n :=
    List.length_replicate n _
  have hilt : i < n := by
    by_contra hge
    push_neg at hge
    rw [superviseTrace, List.getElem?_append_right (by rw [hlen]; exact hge),
      List.getElem?_map, hlen] at hi
    cases hq : pids[i - n]? with
    | none => rw [hq] at hi; simp at hi
    | some q => rw [hq] at hi; simp at hi
  have hjge : n ≤ j := by
    by_contra hlt
    push_neg at hlt
    rw [superviseTrace, List.getElem?_append_left (by rw [hlen]; exact hlt),
      List.getElem?_replicate, if_pos hlt] at hj
    simp at hj
  omega

theorem c3_completion_witness :
    (superviseTrace 1 [7])[0]? = some SupEv.selectCall ∧
    (superviseTrace 1 [7])[1]? = some (SupEv.reapChild 7) ∧ 0 < 1 :=
  ⟨by decide, by decide,
    c3_select_runs_to_completion_first 1 [7] 0 1 7 (by decide) (by decide)⟩

/-! ## The reap loop's wait4 handling (main.rs lines 144-150) -/

/-- Result of `sys::wait4(-1, true)` as matched by main.rs lines 145-150:
a reaped pid with status, the `Ok(None)` case, or an error — with the
interrupted (EINTR) error distinguished. -/
inductive Wait4Res where
  | okSome (pid : Nat) (status : Int)
  | okNone
  | errInterrupted
  | errOther (errno : Nat)
deriving DecidableEq

/-- What the reap loop does with a `wait4` result. -/
inductive ReapAction where
  | proceed (pid : Nat) (status : Int)
  | panicAction
  | retryWait
deriving DecidableEq

/-- Embeds the match of main.rs lines 145-150: `Ok(Some(r))` proceeds,
`Ok(None)` panics, and every `Err(err)` — the `FIXME: Handle EINTR.` case
included — panics with "wait4 failed". -/
def waitMatchStep : Wait4Res → ReapAction
  | Wait4Res.okSome p s => ReapAction.proceed p s
  | Wait4Res.okNone => ReapAction.panicAction
  | Wait4Res.errInterrupted => ReapAction.panicAction
  | Wait4Res.errOther _ => ReapAction.panicAction

/-- C4 fails on the code: when `wait4` fails with `Interrupted`, the reap
loop does not retry the call — it panics (main.rs line 149, flagged by the
`FIXME: Handle EINTR.` comment at line 148). -/
theorem c4_eintr_panics :
    waitMatchStep Wait4Res.errInterrupted = ReapAction.panicAction ∧
    waitMatchStep Wait4Res.errInterrupted ≠ ReapAction.retryWait := by decide

/-! ## The child branch (main.rs lines 76-112) -/

/-- The exit code `exitcode::OSERR`. -/
def OSERR : Nat := 71

/-- An event of the child branch: closing the error-pipe read end, one
`set_up_in_child` call (with its outcome), writing an error frame to
`err_w`, the `execve` call, one `clean_up_in_child` call, or process
exit. -/
inductive ChildEv where
  | closeErrRead
  | setUpFd (i : Nat) (ok : Bool)
  | writeErrFrame
  | execCall
  | cleanUpFd (i : Nat)
  | exitWith (code : Nat)
deriving DecidableEq

/-- The fd-setup prefix of the child branch (main.rs lines 88-93): each
manager's `set_up_in_child` in order; a failure writes an error frame to the
pipe and clears the sticky `ok` flag. -/
def setupEvents : Nat → List Bool → List ChildEv
  | _, [] => []
  | i, ok :: rest =>
    ChildEv.setUpFd i ok ::
      ((if ok then [] else [ChildEv.writeErrFrame]) ++ setupEvents (i + 1) rest)

/-- Embeds the child branch (main.rs lines 76-112) as its event sequence,
parameterised by the outcome of each `set_up_in_child` call and of the exec:
close `err_r` (line 85); run every setup (lines 88-93); if any failed, exit
with `OSERR` and never exec (lines 94-96); otherwise call `execve`
(line 99) — on success the process image is replaced (no further events), on
failure write the exec error frame, run the cleanups, and exit `OSERR`
(lines 101-111). -/
def childBranch (setups : List Bool) (execOk : Bool) (ncleanups : Nat) :
    List ChildEv :=
  ChildEv.closeErrRead ::
    (setupEvents 0 setups ++
      (if setups.all (fun b => b) then
        (if execOk then [ChildEv.execCall]
         else ChildEv.execCall :: ChildEv.writeErrFrame ::
           ((List.range ncleanups).map ChildEv.cleanUpFd
             ++ [ChildEv.exitWith OSERR]))
       else [ChildEv.exitWith OSERR]))

theorem mem_setupEvents {i : Nat} {l : List Bool} {ev : ChildEv}
    (h : ev ∈ setupEvents i l) :
    (∃ k ok, ev = ChildEv.setUpFd k ok) ∨ ev = ChildEv.writeErrFrame := by
  induction l generalizing i with
  | nil => cases h
  | cons ok rest ih =>
    rcases List.mem_cons.mp h with he | he
    · exact Or.inl ⟨i, ok, he⟩
    · rcases List.mem_append.mp he with hif | htail
      · cases ok <;> simp_all
      · exact ih htail

/-- C7: in the child branch every `set_up_in_child` call runs before exec
(setup events all live in the prefix, the exec call only in the suffix), and
if any setup fails `execve` is never called: the child exits with the
`OsError` code without replacing its process image. -/
theorem c7_setup_before_exec (setups : List Bool) (execOk : Bool) (nc : Nat) :
    ∃ suffix : List ChildEv,
      childBranch setups execOk nc
        = ChildEv.closeErrRead :: (setupEvents 0 setups ++ suffix) ∧
      (∀ k ok, ChildEv.setUpFd k ok ∉ suffix) ∧
      ChildEv.execCall ∉ ChildEv.closeErrRead :: setupEvents 0 setups ∧
      (setups.all (fun b => b) = false →
        ChildEv.execCall ∉ childBranch setups execOk nc ∧
        ChildEv.exitWith OSERR ∈ childBranch setups execOk nc) := by
  refine ⟨(if setups.all (fun b => b) then
      (if execOk then [ChildEv.execCall]
       else ChildEv.execCall :: ChildEv.writeErrFrame ::
         ((List.range nc).map ChildEv.cleanUpFd ++ [ChildEv.exitWith OSERR]))
     else [ChildEv.exitWith OSERR]), rfl, ?_, ?_, ?_⟩
  · intro k ok
    split_ifs <;> simp
  · intro hmem
    rcases List.mem_cons.mp hmem with h | h
    · simp at h
    · rcases mem_setupEvents h with ⟨a, b, he⟩ | he <;> simp at he
  · intro hall
    constructor
    · intro hmem
      simp only [childBranch, hall, Bool.false_eq_true, if_false,
        List.mem_cons, List.mem_append] at hmem
      rcases hmem with h | h | h
      · simp at h
      · rcases mem_setupEvents h with ⟨a, b, he⟩ | he <;> simp at he
      · simp at h
    · simp [childBranch, hall]

theorem c7_witness :
    ∃ suffix : List ChildEv,
      childBranch [false] true 0
        = ChildEv.closeErrRead :: (setupEvents 0 [false] ++ suffix) ∧
      (∀ k ok, ChildEv.setUpFd k ok ∉ suffix) ∧
      ChildEv.execCall ∉ ChildEv.closeErrRead :: setupEvents 0 [false] ∧
      (List.all [false] (fun b => b) = false →
        ChildEv.execCall ∉ childBranch [false] true 0 ∧
        ChildEv.exitWith OSERR ∈ childBranch [false] true 0) :=
  c7_setup_before_exec [false] true 0

/-! ## The selector and the reap loop (main.rs lines 144-191)

The selector implementation (`sel.rs`) is part of the repository but not
under src/; its contract is modelled from the spec (§4.D): a mapping
fd → ReaderState, where `remove_reader(fd)` deregisters and returns the
terminal state and has the precondition that the fd is present.  A call
violating the precondition has no defined result; the embedding returns
`none` for it and the surrounding loop aborts. -/

/-- Modelled from the spec: a ReaderState (`sel::Reader`); the error-channel
variant (`sel::Reader::Errors`) accumulates the framed error strings read so
far. -/
inductive Reader where
  | errors (errs : List String)
deriving DecidableEq

/-- Modelled from the spec: the readiness selector's registry, a mapping
fd → ReaderState (spec §4.D, `sel::Selecter`). -/
structure Selecter where
  readers : List (Nat × Reader)
deriving DecidableEq

/-- Modelled from the spec: `remove_reader(fd) → state` deregisters the fd
and returns its terminal state; precondition: the fd is present.  `none`
models a call on an absent fd, which the contract forbids. -/
def Selecter.removeReader (sel : Selecter) (fd : Nat) :
    Option (Reader × Selecter) :=
  match sel.readers.find? (fun p => p.1 == fd) with
  | some p => some (p.2, ⟨sel.readers.filter (fun q => !(q.1 == fd))⟩)
  | none => none

/-- The parent-side state the reap loop of main.rs lines 144-186 updates:
the `procs` table keys, the selector, `result.errors`, and the pids pushed
onto `result.procs`. -/
structure ReapState where
  procs : List Nat
  sel : Selecter
  errors : List String
  procResults : List Nat
deriving DecidableEq

/-- Embeds one iteration of the reap loop on a `wait4` result `pid`
(main.rs lines 152-186): remove the pid from `procs` (an unknown pid is a
benign warning, the loop continues, lines 154-158); then drain the error
pipe: call `selecter.remove_reader(err_read_fd)` (line 162) — `none` models
the abort when that reader is no longer present — push its accumulated
errors into `result.errors` (line 166), and push the per-process record
(line 185). -/
def reapOnce (errRfd : Nat) (st : ReapState) (pid : Nat) : Option ReapState :=
  if st.procs.contains pid then
    match Selecter.removeReader st.sel errRfd with
    | some (Reader.errors errs, sel2) =>
      some { procs := st.procs.erase pid, sel := sel2,
             errors := st.errors ++ errs,
             procResults := st.procResults ++ [pid] }
    | none => none
  else some st

/-- The reap loop (`while procs.len() > 0`, main.rs lines 144-186) over the
sequence of pids returned by successive `wait4` calls. -/
def reapLoop (errRfd : Nat) : ReapState → List Nat → Option ReapState
  | st, [] => some st
  | st, pid :: rest =>
    match reapOnce errRfd st pid with
    | some st2 => reapLoop errRfd st2 rest
    | none => none

/-- Embeds the final exit of main.rs line 191:
`exit(if result.errors.len() > 0 { 1 } else { exitcode::OK })`
(`exitcode::OK` is 0). -/
def exitStep (errors : List String) : Nat :=
  if errors.length > 0 then 1 else 0

theorem exitStep_eq_zero (l : List String) : exitStep l = 0 ↔ l = [] := by
  cases l <;> simp [exitStep]

/-- C2 fails on the code: the reap-loop body calls
`remove_reader(err_read_fd)` on every reap; with two children the first reap
drains the error channel and deregisters the fd, so the second reap's call
finds the fd absent, violating `remove_reader`'s stated precondition, and
the run aborts instead of completing. -/
theorem c2_remove_reader_absent :
    reapOnce 3 { procs := [10, 11],
                 sel := ⟨[(3, Reader.errors ["e1"])]⟩,
                 errors := [], procResults := [] } 10
      = some { procs := [11], sel := ⟨[]⟩, errors := ["e1"],
               procResults := [10] } ∧
    Selecter.removeReader (⟨[]⟩ : Selecter) 3 = none ∧
    reapLoop 3 { procs := [10, 11],
                 sel := ⟨[(3, Reader.errors ["e1"])]⟩,
                 errors := [], procResults := [] } [10, 11] = none := by decide

/-- C8: on a terminating run (one child, reaped once), the accumulated
error-channel messages are drained into `GlobalResult.errors`, and the
supervisor's exit code — main.rs line 191 — is 0 if and only if
`GlobalResult.errors` is empty; any recorded error yields exit code 1. -/
theorem c8_exit_code (chan base : List String) (p fdn : Nat) :
    ∃ st : ReapState,
      reapLoop fdn { procs := [p],
                     sel := ⟨[(fdn, Reader.errors chan)]⟩,
                     errors := base, procResults := [] } [p] = some st ∧
      st.errors = base ++ chan ∧
      (∀ e ∈ chan, e ∈ st.errors) ∧
      (exitStep st.errors = 0 ↔ st.errors = []) ∧
      (st.errors ≠ [] → exitStep st.errors = 1) := by
  refine ⟨{ procs := [], sel := ⟨[]⟩, errors := base ++ chan,
            procResults := [p] }, ?_, rfl, ?_, exitStep_eq_zero _, ?_⟩
  · simp [reapLoop, reapOnce, Selecter.removeReader, List.find?, List.filter]
  · intro e he
    simp [he]
  · intro hne
    rw [exitStep, if_pos (by simpa using List.length_pos.mpr hne)]

theorem c8_exit_witness :
    ∃ st : ReapState,
      reapLoop 3 { procs := [5],
                   sel := ⟨[(3, Reader.errors ["boom"])]⟩,
                   errors := [], procResults := [] } [5] = some st ∧
      st.errors = [] ++ ["boom"] ∧
      (∀ e ∈ ["boom"], e ∈ st.errors) ∧
      (exitStep st.errors = 0 ↔ st.errors = []) ∧
      (st.errors ≠ [] → exitStep st.errors = 1) :=
  c8_exit_code ["boom"] [] 5 3
